import Mathlib

/-!
Verification of the morphie/logle graph engine against its specification.
The core type/value system, the labeled graph store, the graph transformer
and the textual exporter are modelled from the specification (their sources
are not part of this excerpt); the frontend drivers and the checking utility
are translated from the source files of the excerpt.
-/

namespace Morphie

/-- Primitive kinds of the type language. -/
inductive PrimitiveType : Type
  | bool
  | int
  | string
deriving DecidableEq, Repr

mutual

/-- Modelled from the spec: the schema descriptor `Type` of the type/value
model (type.h is not in the excerpt). Variants: primitive, nullable wrapper,
tagged union (tag to sub-type mapping), composite record (field-name to type
mapping). -/
inductive AstType : Type
  | primitive (p : PrimitiveType)
  | nullable (t : AstType)
  | tagged (fields : TypeFields)
  | composite (fields : TypeFields)

/-- An ordered association of tag or field names to types. -/
inductive TypeFields : Type
  | nil
  | cons (tag : String) (t : AstType) (rest : TypeFields)

end

mutual

/-- Modelled from the spec: an untyped raw datum handed to `MakeValue`. -/
inductive Raw : Type
  | null
  | bool (b : Bool)
  | int (i : Int)
  | string (s : String)
  | tagged (tag : String) (r : Raw)
  | composite (fields : RawFields)

/-- An ordered association of field names to raw data. -/
inductive RawFields : Type
  | nil
  | cons (name : String) (r : Raw) (rest : RawFields)

end

mutual

/-- Modelled from the spec: a `Value`, an instance conforming to exactly one
Type (value.h is not in the excerpt). -/
inductive Value : Type
  | boolV (b : Bool)
  | intV (i : Int)
  | stringV (s : String)
  | nullV
  | someV (v : Value)
  | taggedV (tag : String) (v : Value)
  | compositeV (fields : ValueFields)

/-- An ordered association of field names to values. -/
inductive ValueFields : Type
  | nil
  | cons (name : String) (v : Value) (rest : ValueFields)

end

mutual

/-- Decidable structural equality for `AstType`. -/
def decEqAstType : (a b : AstType) → Decidable (a = b)
  | .primitive a0, .primitive b0 =>
      if h0 : a0 = b0 then
        Decidable.isTrue (by rw [h0])
      else Decidable.isFalse (by intro hh; injection hh; contradiction)
  | .nullable a0, .nullable b0 =>
      match decEqAstType a0 b0 with
      | .isFalse h0 => Decidable.isFalse (by intro hh; injection hh; contradiction)
      | .isTrue h0 =>
        Decidable.isTrue (by rw [h0])
  | .tagged a0, .tagged b0 =>
      match decEqTypeFields a0 b0 with
      | .isFalse h0 => Decidable.isFalse (by intro hh; injection hh; contradiction)
      | .isTrue h0 =>
        Decidable.isTrue (by rw [h0])
  | .composite a0, .composite b0 =>
      match decEqTypeFields a0 b0 with
      | .isFalse h0 => Decidable.isFalse (by intro hh; injection hh; contradiction)
      | .isTrue h0 =>
        Decidable.isTrue (by rw [h0])
  | .primitive _, .nullable _ => Decidable.isFalse (by intro hh; cases hh)
  | .primitive _, .tagged _ => Decidable.isFalse (by intro hh; cases hh)
  | .primitive _, .composite _ => Decidable.isFalse (by intro hh; cases hh)
  | .nullable _, .primitive _ => Decidable.isFalse (by intro hh; cases hh)
  | .nullable _, .tagged _ => Decidable.isFalse (by intro hh; cases hh)
  | .nullable _, .composite _ => Decidable.isFalse (by intro hh; cases hh)
  | .tagged _, .primitive _ => Decidable.isFalse (by intro hh; cases hh)
  | .tagged _, .nullable _ => Decidable.isFalse (by intro hh; cases hh)
  | .tagged _, .composite _ => Decidable.isFalse (by intro hh; cases hh)
  | .composite _, .primitive _ => Decidable.isFalse (by intro hh; cases hh)
  | .composite _, .nullable _ => Decidable.isFalse (by intro hh; cases hh)
  | .composite _, .tagged _ => Decidable.isFalse (by intro hh; cases hh)

/-- Decidable structural equality for `TypeFields`. -/
def decEqTypeFields : (a b : TypeFields) → Decidable (a = b)
  | .nil, .nil => Decidable.isTrue rfl
  | .cons a0 a1 a2, .cons b0 b1 b2 =>
      if h0 : a0 = b0 then
        match decEqAstType a1 b1 with
        | .isFalse h1 => Decidable.isFalse (by intro hh; injection hh; contradiction)
        | .isTrue h1 =>
          match decEqTypeFields a2 b2 with
          | .isFalse h2 => Decidable.isFalse (by intro hh; injection hh; contradiction)
          | .isTrue h2 =>
            Decidable.isTrue (by rw [h0, h1, h2])
      else Decidable.isFalse (by intro hh; injection hh; contradiction)
  | .nil, .cons _ _ _ => Decidable.isFalse (by intro hh; cases hh)
  | .cons _ _ _, .nil => Decidable.isFalse (by intro hh; cases hh)

end

instance : DecidableEq AstType := decEqAstType
instance : DecidableEq TypeFields := decEqTypeFields

mutual

/-- Decidable structural equality for `Raw`. -/
def decEqRaw : (a b : Raw) → Decidable (a = b)
  | .null, .null => Decidable.isTrue rfl
  | .bool a0, .bool b0 =>
      if h0 : a0 = b0 then
        Decidable.isTrue (by rw [h0])
      else Decidable.isFalse (by intro hh; injection hh; contradiction)
  | .int a0, .int b0 =>
      if h0 : a0 = b0 then
        Decidable.isTrue (by rw [h0])
      else Decidable.isFalse (by intro hh; injection hh; contradiction)
  | .string a0, .string b0 =>
      if h0 : a0 = b0 then
        Decidable.isTrue (by rw [h0])
      else Decidable.isFalse (by intro hh; injection hh; contradiction)
  | .tagged a0 a1, .tagged b0 b1 =>
      if h0 : a0 = b0 then
        match decEqRaw a1 b1 with
        | .isFalse h1 => Decidable.isFalse (by intro hh; injection hh; contradiction)
        | .isTrue h1 =>
          Decidable.isTrue (by rw [h0, h1])
      else Decidable.isFalse (by intro hh; injection hh; contradiction)
  | .composite a0, .composite b0 =>
      match decEqRawFields a0 b0 with
      | .isFalse h0 => Decidable.isFalse (by intro hh; injection hh; contradiction)
      | .isTrue h0 =>
        Decidable.isTrue (by rw [h0])
  | .null, .bool _ => Decidable.isFalse (by intro hh; cases hh)
  | .null, .int _ => Decidable.isFalse (by intro hh; cases hh)
  | .null, .string _ => Decidable.isFalse (by intro hh; cases hh)
  | .null, .tagged _ _ => Decidable.isFalse (by intro hh; cases hh)
  | .null, .composite _ => Decidable.isFalse (by intro hh; cases hh)
  | .bool _, .null => Decidable.isFalse (by intro hh; cases hh)
  | .bool _, .int _ => Decidable.isFalse (by intro hh; cases hh)
  | .bool _, .string _ => Decidable.isFalse (by intro hh; cases hh)
  | .bool _, .tagged _ _ => Decidable.isFalse (by intro hh; cases hh)
  | .bool _, .composite _ => Decidable.isFalse (by intro hh; cases hh)
  | .int _, .null => Decidable.isFalse (by intro hh; cases hh)
  | .int _, .bool _ => Decidable.isFalse (by intro hh; cases hh)
  | .int _, .string _ => Decidable.isFalse (by intro hh; cases hh)
  | .int _, .tagged _ _ => Decidable.isFalse (by intro hh; cases hh)
  | .int _, .composite _ => Decidable.isFalse (by intro hh; cases hh)
  | .string _, .null => Decidable.isFalse (by intro hh; cases hh)
  | .string _, .bool _ => Decidable.isFalse (by intro hh; cases hh)
  | .string _, .int _ => Decidable.isFalse (by intro hh; cases hh)
  | .string _, .tagged _ _ => Decidable.isFalse (by intro hh; cases hh)
  | .string _, .composite _ => Decidable.isFalse (by intro hh; cases hh)
  | .tagged _ _, .null => Decidable.isFalse (by intro hh; cases hh)
  | .tagged _ _, .bool _ => Decidable.isFalse (by intro hh; cases hh)
  | .tagged _ _, .int _ => Decidable.isFalse (by intro hh; cases hh)
  | .tagged _ _, .string _ => Decidable.isFalse (by intro hh; cases hh)
  | .tagged _ _, .composite _ => Decidable.isFalse (by intro hh; cases hh)
  | .composite _, .null => Decidable.isFalse (by intro hh; cases hh)
  | .composite _, .bool _ => Decidable.isFalse (by intro hh; cases hh)
  | .composite _, .int _ => Decidable.isFalse (by intro hh; cases hh)
  | .composite _, .string _ => Decidable.isFalse (by intro hh; cases hh)
  | .composite _, .tagged _ _ => Decidable.isFalse (by intro hh; cases hh)

/-- Decidable structural equality for `RawFields`. -/
def decEqRawFields : (a b : RawFields) → Decidable (a = b)
  | .nil, .nil => Decidable.isTrue rfl
  | .cons a0 a1 a2, .cons b0 b1 b2 =>
      if h0 : a0 = b0 then
        match decEqRaw a1 b1 with
        | .isFalse h1 => Decidable.isFalse (by intro hh; injection hh; contradiction)
        | .isTrue h1 =>
          match decEqRawFields a2 b2 with
          | .isFalse h2 => Decidable.isFalse (by intro hh; injection hh; contradiction)
          | .isTrue h2 =>
            Decidable.isTrue (by rw [h0, h1, h2])
      else Decidable.isFalse (by intro hh; injection hh; contradiction)
  | .nil, .cons _ _ _ => Decidable.isFalse (by intro hh; cases hh)
  | .cons _ _ _, .nil => Decidable.isFalse (by intro hh; cases hh)

end

instance : DecidableEq Raw := decEqRaw
instance : DecidableEq RawFields := decEqRawFields

mutual

/-- Decidable structural equality for `Value`. -/
def decEqValue : (a b : Value) → Decidable (a = b)
  | .boolV a0, .boolV b0 =>
      if h0 : a0 = b0 then
        Decidable.isTrue (by rw [h0])
      else Decidable.isFalse (by intro hh; injection hh; contradiction)
  | .intV a0, .intV b0 =>
      if h0 : a0 = b0 then
        Decidable.isTrue (by rw [h0])
      else Decidable.isFalse (by intro hh; injection hh; contradiction)
  | .stringV a0, .stringV b0 =>
      if h0 : a0 = b0 then
        Decidable.isTrue (by rw [h0])
      else Decidable.isFalse (by intro hh; injection hh; contradiction)
  | .nullV, .nullV => Decidable.isTrue rfl
  | .someV a0, .someV b0 =>
      match decEqValue a0 b0 with
      | .isFalse h0 => Decidable.isFalse (by intro hh; injection hh; contradiction)
      | .isTrue h0 =>
        Decidable.isTrue (by rw [h0])
  | .taggedV a0 a1, .taggedV b0 b1 =>
      if h0 : a0 = b0 then
        match decEqValue a1 b1 with
        | .isFalse h1 => Decidable.isFalse (by intro hh; injection hh; contradiction)
        | .isTrue h1 =>
          Decidable.isTrue (by rw [h0, h1])
      else Decidable.isFalse (by intro hh; injection hh; contradiction)
  | .compositeV a0, .compositeV b0 =>
      match decEqValueFields a0 b0 with
      | .isFalse h0 => Decidable.isFalse (by intro hh; injection hh; contradiction)
      | .isTrue h0 =>
        Decidable.isTrue (by rw [h0])
  | .boolV _, .intV _ => Decidable.isFalse (by intro hh; cases hh)
  | .boolV _, .stringV _ => Decidable.isFalse (by intro hh; cases hh)
  | .boolV _, .nullV => Decidable.isFalse (by intro hh; cases hh)
  | .boolV _, .someV _ => Decidable.isFalse (by intro hh; cases hh)
  | .boolV _, .taggedV _ _ => Decidable.isFalse (by intro hh; cases hh)
  | .boolV _, .compositeV _ => Decidable.isFalse (by intro hh; cases hh)
  | .intV _, .boolV _ => Decidable.isFalse (by intro hh; cases hh)
  | .intV _, .stringV _ => Decidable.isFalse (by intro hh; cases hh)
  | .intV _, .nullV => Decidable.isFalse (by intro hh; cases hh)
  | .intV _, .someV _ => Decidable.isFalse (by intro hh; cases hh)
  | .intV _, .taggedV _ _ => Decidable.isFalse (by intro hh; cases hh)
  | .intV _, .compositeV _ => Decidable.isFalse (by intro hh; cases hh)
  | .stringV _, .boolV _ => Decidable.isFalse (by intro hh; cases hh)
  | .stringV _, .intV _ => Decidable.isFalse (by intro hh; cases hh)
  | .stringV _, .nullV => Decidable.isFalse (by intro hh; cases hh)
  | .stringV _, .someV _ => Decidable.isFalse (by intro hh; cases hh)
  | .stringV _, .taggedV _ _ => Decidable.isFalse (by intro hh; cases hh)
  | .stringV _, .compositeV _ => Decidable.isFalse (by intro hh; cases hh)
  | .nullV, .boolV _ => Decidable.isFalse (by intro hh; cases hh)
  | .nullV, .intV _ => Decidable.isFalse (by intro hh; cases hh)
  | .nullV, .stringV _ => Decidable.isFalse (by intro hh; cases hh)
  | .nullV, .someV _ => Decidable.isFalse (by intro hh; cases hh)
  | .nullV, .taggedV _ _ => Decidable.isFalse (by intro hh; cases hh)
  | .nullV, .compositeV _ => Decidable.isFalse (by intro hh; cases hh)
  | .someV _, .boolV _ => Decidable.isFalse (by intro hh; cases hh)
  | .someV _, .intV _ => Decidable.isFalse (by intro hh; cases hh)
  | .someV _, .stringV _ => Decidable.isFalse (by intro hh; cases hh)
  | .someV _, .nullV => Decidable.isFalse (by intro hh; cases hh)
  | .someV _, .taggedV _ _ => Decidable.isFalse (by intro hh; cases hh)
  | .someV _, .compositeV _ => Decidable.isFalse (by intro hh; cases hh)
  | .taggedV _ _, .boolV _ => Decidable.isFalse (by intro hh; cases hh)
  | .taggedV _ _, .intV _ => Decidable.isFalse (by intro hh; cases hh)
  | .taggedV _ _, .stringV _ => Decidable.isFalse (by intro hh; cases hh)
  | .taggedV _ _, .nullV => Decidable.isFalse (by intro hh; cases hh)
  | .taggedV _ _, .someV _ => Decidable.isFalse (by intro hh; cases hh)
  | .taggedV _ _, .compositeV _ => Decidable.isFalse (by intro hh; cases hh)
  | .compositeV _, .boolV _ => Decidable.isFalse (by intro hh; cases hh)
  | .compositeV _, .intV _ => Decidable.isFalse (by intro hh; cases hh)
  | .compositeV _, .stringV _ => Decidable.isFalse (by intro hh; cases hh)
  | .compositeV _, .nullV => Decidable.isFalse (by intro hh; cases hh)
  | .compositeV _, .someV _ => Decidable.isFalse (by intro hh; cases hh)
  | .compositeV _, .taggedV _ _ => Decidable.isFalse (by intro hh; cases hh)

/-- Decidable structural equality for `ValueFields`. -/
def decEqValueFields : (a b : ValueFields) → Decidable (a = b)
  | .nil, .nil => Decidable.isTrue rfl
  | .cons a0 a1 a2, .cons b0 b1 b2 =>
      if h0 : a0 = b0 then
        match decEqValue a1 b1 with
        | .isFalse h1 => Decidable.isFalse (by intro hh; injection hh; contradiction)
        | .isTrue h1 =>
          match decEqValueFields a2 b2 with
          | .isFalse h2 => Decidable.isFalse (by intro hh; injection hh; contradiction)
          | .isTrue h2 =>
            Decidable.isTrue (by rw [h0, h1, h2])
      else Decidable.isFalse (by intro hh; injection hh; contradiction)
  | .nil, .cons _ _ _ => Decidable.isFalse (by intro hh; cases hh)
  | .cons _ _ _, .nil => Decidable.isFalse (by intro hh; cases hh)

end

instance : DecidableEq Value := decEqValue
instance : DecidableEq ValueFields := decEqValueFields


/-- First raw datum associated to a field name in a raw record. -/
def lookupRaw : RawFields → String → Option Raw
  | .nil, _ => none
  | .cons k r rest, key => if k = key then some r else lookupRaw rest key

/-- First type associated to a tag in a schema fragment. -/
def lookupType : TypeFields → String → Option AstType
  | .nil, _ => none
  | .cons k t rest, key => if k = key then some t else lookupType rest key

mutual

/-- Modelled from the spec: structural conformance of a Value to a Type. A
primitive value conforms to its primitive type; a nullable value is absent or
an inner conforming value; a tagged value carries one tag registered in the
union together with a value conforming to that tag's sub-type; a composite
value carries one conforming value per declared field, in declaration
order. -/
def conforms : Value → AstType → Bool
  | .boolV _, .primitive .bool => true
  | .intV _, .primitive .int => true
  | .stringV _, .primitive .string => true
  | .nullV, .nullable _ => true
  | .someV v, .nullable t => conforms v t
  | .taggedV tag v, .tagged fields => conformsTagged fields tag v
  | .compositeV vfields, .composite tfields => conformsFields vfields tfields
  | _, _ => false

/-- Conformance of a tagged value's payload to the sub-type registered for
its tag. -/
def conformsTagged : TypeFields → String → Value → Bool
  | .nil, _, _ => false
  | .cons k t rest, tag, v =>
      if k = tag then conforms v t else conformsTagged rest tag v

/-- Conformance of a record value's fields to the declared fields, in
declaration order. -/
def conformsFields : ValueFields → TypeFields → Bool
  | .nil, .nil => true
  | .cons n v vs, .cons m t ts =>
      decide (n = m) && conforms v t && conformsFields vs ts
  | _, _ => false

end

mutual

/-- Modelled from the spec: `MakeValue(type, raw)` constructs a Value
conforming to `type`, and fails with a type-mismatch condition when `raw`
cannot be represented under `type` (value.h is not in the excerpt): null for
a non-nullable primitive, an unregistered tag for a tagged type, a missing
declared field for a composite type. -/
def MakeValue : AstType → Raw → Except String Value
  | .primitive .bool, .bool b => .ok (.boolV b)
  | .primitive .int, .int i => .ok (.intV i)
  | .primitive .string, .string s => .ok (.stringV s)
  | .nullable _, .null => .ok .nullV
  | .nullable t, r => (MakeValue t r).map .someV
  | .tagged fields, .tagged tag r => makeTagged fields tag r
  | .composite fields, .composite rfields =>
      (makeComposite fields rfields).map .compositeV
  | _, _ => .error "type mismatch"

/-- Constructs the payload of a tagged value by locating the sub-type
registered for the tag; fails on an unregistered tag. -/
def makeTagged : TypeFields → String → Raw → Except String Value
  | .nil, _, _ => .error "unknown tag"
  | .cons k t rest, tag, r =>
      if k = tag then (MakeValue t r).map (.taggedV tag)
      else makeTagged rest tag r

/-- Constructs the fields of a composite value, one per declared field in
declaration order; fails when a declared field is missing from the raw
record. -/
def makeComposite : TypeFields → RawFields → Except String ValueFields
  | .nil, _ => .ok .nil
  | .cons f t rest, rfields =>
      match lookupRaw rfields f with
      | none => .error "missing field"
      | some r =>
        match MakeValue t r with
        | .error e => .error e
        | .ok v =>
          match makeComposite rest rfields with
          | .error e => .error e
          | .ok vs => .ok (.cons f v vs)

end

mutual

/-- Modelled from the spec: the declarative condition under which a raw datum
can be represented under a type, read off the data-model section: the raw
datum is a scalar of the primitive kind, or null or a representable datum
under a nullable type, or carries a registered tag with a representable
payload, or supplies a representable datum for every declared field of a
composite type. -/
def wellShaped : AstType → Raw → Bool
  | .primitive .bool, .bool _ => true
  | .primitive .int, .int _ => true
  | .primitive .string, .string _ => true
  | .nullable _, .null => true
  | .nullable t, r => wellShaped t r
  | .tagged fields, .tagged tag r => shapeTagged fields tag r
  | .composite fields, .composite rfields => shapeComposite fields rfields
  | _, _ => false

/-- The tag is registered and the payload is representable under its
sub-type. -/
def shapeTagged : TypeFields → String → Raw → Bool
  | .nil, _, _ => false
  | .cons k t rest, tag, r =>
      if k = tag then wellShaped t r else shapeTagged rest tag r

/-- Every declared field is present in the raw record and representable under
its declared type. -/
def shapeComposite : TypeFields → RawFields → Bool
  | .nil, _ => true
  | .cons f t rest, rfields =>
      match lookupRaw rfields f with
      | none => false
      | some r => wellShaped t r && shapeComposite rest rfields

end

/-- Success flag of a fallible construction. -/
def exceptOk {α : Type} : Except String α → Bool
  | .ok _ => true
  | .error _ => false

theorem exceptOk_map {α β : Type} (f : α → β) (e : Except String α) :
    exceptOk (e.map f) = exceptOk e := by
  cases e <;> rfl

theorem map_eq_ok {α β : Type} (f : α → β) (e : Except String α) (b : β) :
    e.map f = .ok b ↔ ∃ a, e = .ok a ∧ f a = b := by
  cases e <;> simp [Except.map]

mutual

theorem makeValue_conforms : ∀ (t : AstType) (r : Raw) (v : Value),
    MakeValue t r = .ok v → conforms v t = true
  | .primitive p, r, v, h => by
      cases p <;> cases r <;> simp only [MakeValue] at h <;> first
        | (simp only [Except.ok.injEq] at h; subst h; rfl)
        | exact absurd h (by simp)
  | .nullable t, r, v, h => by
      cases r with
      | null =>
          simp only [MakeValue, Except.ok.injEq] at h
          subst h; rfl
      | bool b =>
          simp only [MakeValue] at h
          obtain ⟨w, hw, hv⟩ := (map_eq_ok _ _ _).1 h
          subst hv
          simpa only [conforms] using makeValue_conforms t _ w hw
      | int i =>
          simp only [MakeValue] at h
          obtain ⟨w, hw, hv⟩ := (map_eq_ok _ _ _).1 h
          subst hv
          simpa only [conforms] using makeValue_conforms t _ w hw
      | string s =>
          simp only [MakeValue] at h
          obtain ⟨w, hw, hv⟩ := (map_eq_ok _ _ _).1 h
          subst hv
          simpa only [conforms] using makeValue_conforms t _ w hw
      | tagged tag r =>
          simp only [MakeValue] at h
          obtain ⟨w, hw, hv⟩ := (map_eq_ok _ _ _).1 h
          subst hv
          simpa only [conforms] using makeValue_conforms t _ w hw
      | composite rfields =>
          simp only [MakeValue] at h
          obtain ⟨w, hw, hv⟩ := (map_eq_ok _ _ _).1 h
          subst hv
          simpa only [conforms] using makeValue_conforms t _ w hw
  | .tagged fields, r, v, h => by
      cases r with
      | tagged tag rr =>
          simp only [MakeValue] at h
          obtain ⟨w, hv, hc⟩ := makeTagged_conforms fields tag rr v h
          subst hv
          simpa only [conforms] using hc
      | null => exact absurd h (by simp [MakeValue])
      | bool b => exact absurd h (by simp [MakeValue])
      | int i => exact absurd h (by simp [MakeValue])
      | string s => exact absurd h (by simp [MakeValue])
      | composite rfields => exact absurd h (by simp [MakeValue])
  | .composite fields, r, v, h => by
      cases r with
      | composite rfields =>
          simp only [MakeValue] at h
          obtain ⟨vs, hvs, hv⟩ := (map_eq_ok _ _ _).1 h
          subst hv
          simpa only [conforms] using makeComposite_conforms fields rfields vs hvs
      | null => exact absurd h (by simp [MakeValue])
      | bool b => exact absurd h (by simp [MakeValue])
      | int i => exact absurd h (by simp [MakeValue])
      | string s => exact absurd h (by simp [MakeValue])
      | tagged tag rr => exact absurd h (by simp [MakeValue])

theorem makeTagged_conforms : ∀ (fields : TypeFields) (tag : String) (r : Raw)
    (v : Value), makeTagged fields tag r = .ok v →
    ∃ w, v = .taggedV tag w ∧ conformsTagged fields tag w = true
  | .nil, tag, r, v, h => by simp [makeTagged] at h
  | .cons k t rest, tag, r, v, h => by
      by_cases hk : k = tag
      · simp only [makeTagged, if_pos hk] at h
        obtain ⟨w, hw, hv⟩ := (map_eq_ok _ _ _).1 h
        exact ⟨w, hv.symm, by
          simpa only [conformsTagged, if_pos hk] using
            makeValue_conforms t r w hw⟩
      · simp only [makeTagged, if_neg hk] at h
        obtain ⟨w, hv, hc⟩ := makeTagged_conforms rest tag r v h
        exact ⟨w, hv, by simpa only [conformsTagged, if_neg hk] using hc⟩

theorem makeComposite_conforms : ∀ (fields : TypeFields) (rfields : RawFields)
    (vs : ValueFields), makeComposite fields rfields = .ok vs →
    conformsFields vs fields = true
  | .nil, rfields, vs, h => by
      simp only [makeComposite, Except.ok.injEq] at h
      subst h; rfl
  | .cons f t rest, rfields, vs, h => by
      cases hr : lookupRaw rfields f with
      | none => simp [makeComposite, hr] at h
      | some r =>
          cases hmv : MakeValue t r with
          | error e => simp [makeComposite, hr, hmv] at h
          | ok v =>
              cases hmc : makeComposite rest rfields with
              | error e => simp [makeComposite, hr, hmv, hmc] at h
              | ok ws =>
                  simp only [makeComposite, hr, hmv, hmc,
                    Except.ok.injEq] at h
                  subst h
                  simp only [conformsFields, decide_True, Bool.true_and,
                    Bool.and_eq_true]
                  exact ⟨makeValue_conforms t r v hmv,
                    makeComposite_conforms rest rfields ws hmc⟩

end

mutual

theorem makeValue_isOk : ∀ (t : AstType) (r : Raw),
    exceptOk (MakeValue t r) = wellShaped t r
  | .primitive p, r => by
      cases p <;> cases r <;> rfl
  | .nullable t, r => by
      cases r with
      | null => rfl
      | bool b =>
          simp only [MakeValue, wellShaped, exceptOk_map]
          exact makeValue_isOk t _
      | int i =>
          simp only [MakeValue, wellShaped, exceptOk_map]
          exact makeValue_isOk t _
      | string s =>
          simp only [MakeValue, wellShaped, exceptOk_map]
          exact makeValue_isOk t _
      | tagged tag rr =>
          simp only [MakeValue, wellShaped, exceptOk_map]
          exact makeValue_isOk t _
      | composite rfields =>
          simp only [MakeValue, wellShaped, exceptOk_map]
          exact makeValue_isOk t _
  | .tagged fields, r => by
      cases r with
      | tagged tag rr =>
          simp only [MakeValue, wellShaped]
          exact makeTagged_isOk fields tag rr
      | null => rfl
      | bool b => rfl
      | int i => rfl
      | string s => rfl
      | composite rfields => rfl
  | .composite fields, r => by
      cases r with
      | composite rfields =>
          simp only [MakeValue, wellShaped, exceptOk_map]
          exact makeComposite_isOk fields rfields
      | null => rfl
      | bool b => rfl
      | int i => rfl
      | string s => rfl
      | tagged tag rr => rfl

theorem makeTagged_isOk : ∀ (fields : TypeFields) (tag : String) (r : Raw),
    exceptOk (makeTagged fields tag r) = shapeTagged fields tag r
  | .nil, tag, r => rfl
  | .cons k t rest, tag, r => by
      by_cases hk : k = tag
      · simp only [makeTagged, shapeTagged, if_pos hk, exceptOk_map]
        exact makeValue_isOk t r
      · simp only [makeTagged, shapeTagged, if_neg hk]
        exact makeTagged_isOk rest tag r

theorem makeComposite_isOk : ∀ (fields : TypeFields) (rfields : RawFields),
    exceptOk (makeComposite fields rfields) = shapeComposite fields rfields
  | .nil, rfields => rfl
  | .cons f t rest, rfields => by
      cases hr : lookupRaw rfields f with
      | none => simp [makeComposite, shapeComposite, hr, exceptOk]
      | some r =>
          cases hmv : MakeValue t r with
          | error e =>
              have hws : wellShaped t r = false := by
                rw [← makeValue_isOk t r, hmv]; rfl
              simp [makeComposite, shapeComposite, hr, hmv, hws, exceptOk]
          | ok v =>
              have hws : wellShaped t r = true := by
                rw [← makeValue_isOk t r, hmv]; rfl
              cases hmc : makeComposite rest rfields with
              | error e =>
                  have hsc : shapeComposite rest rfields = false := by
                    rw [← makeComposite_isOk rest rfields, hmc]; rfl
                  simp [makeComposite, shapeComposite, hr, hmv, hmc, hws, hsc,
                    exceptOk]
              | ok ws =>
                  have hsc : shapeComposite rest rfields = true := by
                    rw [← makeComposite_isOk rest rfields, hmc]; rfl
                  simp [makeComposite, shapeComposite, hr, hmv, hmc, hws, hsc,
                    exceptOk]

end

/-- A node identifier: an opaque, densely assigned handle, unique within one
graph instance. -/
abbrev NodeId := Nat

/-- An edge identifier. -/
abbrev EdgeId := Nat

/-- A (tag, value) pair used as a node or edge label (TaggedAST in the
source). -/
structure TaggedValue where
  tag : String
  ast : Value
deriving DecidableEq

/-- An edge entry, owned by its target node and recording its source node
and its label. -/
structure EdgeEntry where
  target : NodeId
  source : NodeId
  label : TaggedValue
deriving DecidableEq

/-- Modelled from the spec: the canonical labeled graph store
(labeled_graph.h is not in the excerpt). Nodes and edges are kept in
insertion order; the per-target subsequence of the edge list is the
per-target insertion order. -/
structure LabeledGraph where
  initialized : Bool := false
  node_types : List (String × AstType) := []
  node_attr_types : List (String × AstType) := []
  edge_types : List (String × AstType) := []
  edge_attr_types : List (String × AstType) := []
  default_type : AstType := .primitive .bool
  nodes : List (NodeId × TaggedValue) := []
  edges : List EdgeEntry := []
  next_id : NodeId := 0
deriving DecidableEq

/-- Outcome of a store operation: fatal process abort raised through the
checking utility, recoverable failure with a reason, or success. -/
inductive OpResult (α : Type) : Type
  | fatal
  | error (msg : String)
  | ok (a : α)
deriving DecidableEq

/-- Success flag of a store operation. -/
def OpResult.isOk {α : Type} : OpResult α → Bool
  | .ok _ => true
  | _ => false

namespace util

/-- Translated from src/util/logging.cc: `util::Check` writes a diagnostic
and aborts the process when the condition is false; the abort is modelled as
`none`. -/
def Check (condition : Bool) (location err : String) : Option Unit :=
  if condition then some () else none

end util

/-- First value associated to a key in an association list. -/
def lookupStr {α : Type} : List (String × α) → String → Option α
  | [], _ => none
  | (k, v) :: rest, key => if k = key then some v else lookupStr rest key

/-- The type registered for a tag, or the default type when the tag is not
registered. -/
def schemaType (schema : List (String × AstType)) (dflt : AstType)
    (tag : String) : AstType :=
  match lookupStr schema tag with
  | some t => t
  | none => dflt

/-- Modelled from the spec: a label type-checks when its value conforms to
the type registered for its tag, the default type standing in for an
unregistered tag. -/
def labelChecks (schema : List (String × AstType)) (dflt : AstType)
    (l : TaggedValue) : Bool :=
  conforms l.ast (schemaType schema dflt l.tag)

/-- Modelled from the spec: installs the node and edge schemas and the
default type and moves the store to its initialized state; initializing an
already initialized store is a programming-contract violation and fatal. -/
def LabeledGraph.Initialize (g : LabeledGraph)
    (node_types node_attr_types edge_types edge_attr_types :
      List (String × AstType))
    (dflt : AstType) : OpResult LabeledGraph :=
  match util.Check (!g.initialized) "LabeledGraph" "already initialized" with
  | none => .fatal
  | some _ =>
      .ok { g with
              initialized := true,
              node_types := node_types,
              node_attr_types := node_attr_types,
              edge_types := edge_types,
              edge_attr_types := edge_attr_types,
              default_type := dflt }

/-- The id of the first node carrying a structurally equal label. -/
def findLabel : List (NodeId × TaggedValue) → TaggedValue → Option NodeId
  | [], _ => none
  | (i, l2) :: rest, l => if l2 = l then some i else findLabel rest l

/-- Whether a node with the given id exists in the graph. -/
def hasNode (g : LabeledGraph) (i : NodeId) : Bool :=
  g.nodes.any (fun p => p.1 == i)

/-- Number of nodes of the graph. -/
def nodeCount (g : LabeledGraph) : Nat := g.nodes.length

/-- Number of edges of the graph. -/
def edgeCount (g : LabeledGraph) : Nat := g.edges.length

/-- Modelled from the spec: type-checks the label against the node schema,
returns the id of an existing node with a structurally equal label with no
side effect, and otherwise allocates a fresh id and stores the node. Fatal
when the store is not initialized. -/
def LabeledGraph.FindOrAddNode (g : LabeledGraph) (label : TaggedValue) :
    OpResult (NodeId × LabeledGraph) :=
  match util.Check g.initialized "LabeledGraph" "not initialized" with
  | none => .fatal
  | some _ =>
      if labelChecks g.node_types g.default_type label then
        match findLabel g.nodes label with
        | some i => .ok (i, g)
        | none =>
            .ok (g.next_id,
              { g with
                  nodes := g.nodes ++ [(g.next_id, label)],
                  next_id := g.next_id + 1 })
      else .error "schema violation"

/-- Modelled from the spec: type-checks the label against the edge schema,
fails when either endpoint does not exist, and otherwise always appends a
new edge entry owned by the target and recording the source, with no
deduplication. Fatal when the store is not initialized. -/
def LabeledGraph.AddEdge (g : LabeledGraph) (source target : NodeId)
    (label : TaggedValue) : OpResult (EdgeId × LabeledGraph) :=
  match util.Check g.initialized "LabeledGraph" "not initialized" with
  | none => .fatal
  | some _ =>
      if labelChecks g.edge_types g.default_type label then
        if hasNode g source && hasNode g target then
          .ok (g.edges.length,
            { g with edges := g.edges ++ [⟨target, source, label⟩] })
        else .error "missing endpoint"
      else .error "schema violation"

/-- Modelled from the spec: `DeleteNodes(graph, node_ids)` returns a new
graph keeping every node whose id is not listed and every edge both of whose
endpoints are not listed, in their original relative order; unknown ids are
ignored and the call never fails. -/
def DeleteNodes (g : LabeledGraph) (ids : List NodeId) : LabeledGraph :=
  { g with
      nodes := g.nodes.filter (fun p => decide (p.1 ∉ ids)),
      edges := g.edges.filter
        (fun e => decide (e.source ∉ ids) && decide (e.target ∉ ids)) }

/-- Modelled from the spec: the C++ transformer receives the input graph by
reference and returns a freshly built graph; a call is modelled as returning
the post-call state of the input graph together with the result. -/
def DeleteNodesCall (g : LabeledGraph) (ids : List NodeId) :
    LabeledGraph × LabeledGraph :=
  (g, DeleteNodes g ids)

mutual

/-- Modelled from the spec: a human-readable flattening of a value for the
textual exporter. -/
def renderValue : Value → String
  | .boolV b => toString b
  | .intV i => toString i
  | .stringV s => s
  | .nullV => "null"
  | .someV v => renderValue v
  | .taggedV tag v => tag ++ ": " ++ renderValue v
  | .compositeV fs => "(" ++ renderFields fs ++ ")"

/-- Renders record fields in declaration order. -/
def renderFields : ValueFields → String
  | .nil => ""
  | .cons n v rest => n ++ "=" ++ renderValue v ++ ";" ++ renderFields rest

end

/-- The declaration the exporter emits for one node. -/
def nodeDecl (n : NodeId × TaggedValue) : String :=
  toString n.1 ++ " [label=\"" ++ n.2.tag ++ ": " ++ renderValue n.2.ast
    ++ "\"];\n"

/-- The declaration the exporter emits for one edge. -/
def edgeDecl (e : EdgeEntry) : String :=
  toString e.source ++ " -> " ++ toString e.target ++ " [label=\""
    ++ e.label.tag ++ ": " ++ renderValue e.label.ast ++ "\"];\n"

/-- Concatenation of a list of emitted declarations. -/
def joinAll : List String → String
  | [] => ""
  | s :: rest => s ++ joinAll rest

/-- Modelled from the spec: `DotGraph` emits one declaration per node and
one per edge in the graph's own iteration order, as a pure function of the
graph's node and edge content, with no timestamp or other nondeterministic
content. -/
def DotGraph (g : LabeledGraph) : String :=
  "digraph logle_graph \x7b\n" ++ joinAll (g.nodes.map nodeDecl)
    ++ joinAll (g.edges.map edgeDecl) ++ "\x7d\n"

/-- A structurally valid graph: every node label checks against the node
schema, every edge label checks against the edge schema and both its
endpoints exist, node ids are below the allocation counter and are
distinct. -/
def WellFormed (g : LabeledGraph) : Prop :=
  (∀ p ∈ g.nodes, labelChecks g.node_types g.default_type p.2 = true) ∧
  (∀ e ∈ g.edges, labelChecks g.edge_types g.default_type e.label = true ∧
    hasNode g e.source = true ∧ hasNode g e.target = true) ∧
  (∀ p ∈ g.nodes, p.1 < g.next_id) ∧
  (g.nodes.map Prod.fst).Nodup

/-- Status codes used by the frontend (util/status.h). -/
inductive Code : Type
  | OK
  | INVALID_ARGUMENT
  | EXTERNAL
  | INTERNAL
deriving DecidableEq

/-- A status as used by the frontend: a code and an explanation; `ok` holds
exactly for the OK code. -/
structure Status where
  code : Code
  msg : String
deriving DecidableEq

/-- Whether the status carries the OK code. -/
def Status.ok (s : Status) : Bool := s.code == Code.OK

/-- The distinguished OK status. -/
def Status.OK : Status := ⟨Code.OK, ""⟩

/-- The input file oneof of AnalysisOptions (from the options proto). -/
inductive InputFile : Type
  | unset
  | csv_file (f : String)
  | json_file (f : String)
  | json_stream_file (f : String)
deriving DecidableEq

/-- The output file oneof of AnalysisOptions. -/
inductive OutputFile : Type
  | unset
  | output_dot_file (f : String)
  | output_pbtxt_file (f : String)
deriving DecidableEq

/-- Translated from the options proto: the fields selecting the analyzer to
run and its input and output files. -/
structure AnalysisOptions where
  analyzer : Option String
  input_file : InputFile
  output_file : OutputFile
deriving DecidableEq

/-- Proto2 getter: whether the analyzer field is set. -/
def AnalysisOptions.has_analyzer (o : AnalysisOptions) : Bool :=
  o.analyzer.isSome

/-- Proto2 getter: whether the input is a CSV file. -/
def AnalysisOptions.has_csv_file (o : AnalysisOptions) : Bool :=
  match o.input_file with
  | .csv_file _ => true
  | _ => false

/-- Proto2 getter: whether the input is a JSON object file. -/
def AnalysisOptions.has_json_file (o : AnalysisOptions) : Bool :=
  match o.input_file with
  | .json_file _ => true
  | _ => false

/-- Proto2 getter: the output DOT file name, empty when that field of the
output oneof is not set. -/
def AnalysisOptions.output_dot_file (o : AnalysisOptions) : String :=
  match o.output_file with
  | .output_dot_file f => f
  | _ => ""

/-- Outcomes the Curio analyzer would produce for the given input: its
implementation is not part of the excerpt and the driver consults it only
through these. -/
structure CurioAnalyzer where
  initStatus : Status
  buildStatus : Status
  dotText : String

/-- Outcomes the mail access analyzer and the CSV parser factory would
produce for the given input. -/
structure AccessAnalyzer where
  csvParserStatus : Status
  initStatus : Status
  buildStatus : Status
  dotText : String

/-- Outcomes the Plaso analyzer and the file system would produce.
`buildStatus` is modelled from the spec: the analyzer lifecycle contract
gives the build step a status outcome; the driver source discards it. -/
structure PlasoAnalyzer where
  fileOpens : Bool
  initStatus : Status
  buildStatus : Status
  dotText : String

/-- Result of one driver call: the returned status, the final contents of
the dot_graph out-parameter, and whether the export step was invoked. -/
structure DriverResult where
  status : Status
  dot_graph : String
  exported : Bool
deriving DecidableEq

namespace frontend

/-- Translated from RunCurioAnalyzer in the frontend source: require a JSON
input file, then initialize, then build, returning early on any non-OK
status; only then invoke DependencyGraphAsDot. -/
def RunCurioAnalyzer (options : AnalysisOptions) (a : CurioAnalyzer)
    (dot0 : String) : DriverResult :=
  if !options.has_json_file then
    ⟨⟨Code.INVALID_ARGUMENT, "The Curio analyzer requires a JSON input file."⟩,
      dot0, false⟩
  else if !a.initStatus.ok then ⟨a.initStatus, dot0, false⟩
  else if !a.buildStatus.ok then ⟨a.buildStatus, dot0, false⟩
  else ⟨a.buildStatus, a.dotText, true⟩

/-- Translated from RunPlasoAnalyzer in the frontend source: a JSON or JSON
stream input whose file fails to open aborts through CHECK, any other input
kind aborts through FAIL (both modelled as `none`); a non-OK initialization
status is returned; afterwards BuildPlasoGraph is invoked with its outcome
unread and PlasoGraphDot is always invoked. -/
def RunPlasoAnalyzer (options : AnalysisOptions) (a : PlasoAnalyzer)
    (dot0 : String) : Option DriverResult :=
  match options.input_file with
  | .json_file _ =>
      if !a.fileOpens then none
      else if !a.initStatus.ok then some ⟨a.initStatus, dot0, false⟩
      else some ⟨Status.OK, a.dotText, true⟩
  | .json_stream_file _ =>
      if !a.fileOpens then none
      else if !a.initStatus.ok then some ⟨a.initStatus, dot0, false⟩
      else some ⟨Status.OK, a.dotText, true⟩
  | _ => none

/-- Translated from RunMailAccessAnalyzer in the frontend source: require a
CSV input file, obtain the CSV parser, initialize, build, returning early on
any non-OK status; only then invoke AccessGraphAsDot. -/
def RunMailAccessAnalyzer (options : AnalysisOptions) (a : AccessAnalyzer)
    (dot0 : String) : DriverResult :=
  if !options.has_csv_file then
    ⟨⟨Code.INVALID_ARGUMENT, "The access analyzer requires a CSV input file."⟩,
      dot0, false⟩
  else if !a.csvParserStatus.ok then ⟨a.csvParserStatus, dot0, false⟩
  else if !a.initStatus.ok then ⟨a.initStatus, dot0, false⟩
  else if !a.buildStatus.ok then ⟨a.buildStatus, dot0, false⟩
  else ⟨Status.OK, a.dotText, true⟩

/-- The error message for a missing or unrecognized analyzer name. -/
def kInvalidAnalyzerErr : String :=
  "Invalid analysis. The analysis must be one of curio, mail, or plaso."

/-- The analyzer outcomes available to one frontend run. -/
structure Analyzers where
  curio : CurioAnalyzer
  mail : AccessAnalyzer
  plaso : PlasoAnalyzer

/-- Result of frontend::Run: the returned status, whether WriteToFile was
invoked, and the contents handed to it. -/
structure RunResult where
  status : Status
  wroteFile : Bool
  written : String
deriving DecidableEq

/-- Translated from the tail of frontend::Run: return on a non-OK status or
empty DOT text without writing, otherwise write exactly when an output DOT
file is named. `writeStatus` is the status the file system produces for the
write. -/
def finishRun (options : AnalysisOptions) (writeStatus : Status)
    (dr : DriverResult) : RunResult :=
  if !dr.status.ok || dr.dot_graph == "" then ⟨dr.status, false, ""⟩
  else if options.output_dot_file == "" then ⟨dr.status, false, ""⟩
  else ⟨writeStatus, true, dr.dot_graph⟩

/-- Translated from frontend::Run: dispatch on the analyzer name, returning
INVALID_ARGUMENT when the name is missing or unrecognized; `none` models the
Plaso driver aborting the process. -/
def Run (options : AnalysisOptions) (a : Analyzers) (writeStatus : Status) :
    Option RunResult :=
  match options.analyzer with
  | none => some ⟨⟨Code.INVALID_ARGUMENT, kInvalidAnalyzerErr⟩, false, ""⟩
  | some nm =>
      if nm = "curio" then
        some (finishRun options writeStatus
          (RunCurioAnalyzer options a.curio ""))
      else if nm = "mail" then
        some (finishRun options writeStatus
          (RunMailAccessAnalyzer options a.mail ""))
      else if nm = "plaso" then
        match RunPlasoAnalyzer options a.plaso "" with
        | none => none
        | some dr => some (finishRun options writeStatus dr)
      else some ⟨⟨Code.INVALID_ARGUMENT, kInvalidAnalyzerErr⟩, false, ""⟩

end frontend

theorem findLabel_append (ns : List (NodeId × TaggedValue)) (l : TaggedValue)
    (i : NodeId) (h : findLabel ns l = none) :
    findLabel (ns ++ [(i, l)]) l = some i := by
  induction ns with
  | nil => simp [findLabel]
  | cons p rest ih =>
      obtain ⟨j, l2⟩ := p
      by_cases hl : l2 = l
      · simp [findLabel, hl] at h
      · simp only [List.cons_append, findLabel, if_neg hl] at h ⊢
        exact ih h

theorem findLabel_eq_none (ns : List (NodeId × TaggedValue))
    (l : TaggedValue) : findLabel ns l = none ↔ ∀ p ∈ ns, p.2 ≠ l := by
  induction ns with
  | nil => simp [findLabel]
  | cons p rest ih =>
      obtain ⟨j, l2⟩ := p
      by_cases hl : l2 = l
      · subst hl; simp [findLabel]
      · simp [findLabel, hl, ih]

theorem hasNode_iff (g : LabeledGraph) (i : NodeId) :
    hasNode g i = true ↔ ∃ p ∈ g.nodes, p.1 = i := by
  simp [hasNode, List.any_eq_true]

/-- C1: on an initialized graph, a second `FindOrAddNode` call with a label
structurally equal to the first returns the NodeId the first call returned
and leaves the graph — in particular its node count — unchanged; a call
whose label equals no existing node's label allocates the fresh id
`next_id`, stores the node, and returns that id. -/
theorem C1_find_or_add_node_canonical :
    (∀ (g : LabeledGraph) (l : TaggedValue) (i : NodeId) (g1 : LabeledGraph),
        LabeledGraph.FindOrAddNode g l = .ok (i, g1) →
        LabeledGraph.FindOrAddNode g1 l = .ok (i, g1)) ∧
    (∀ (g : LabeledGraph) (l : TaggedValue),
        g.initialized = true →
        labelChecks g.node_types g.default_type l = true →
        (∀ p ∈ g.nodes, p.2 ≠ l) →
        ∃ g1, LabeledGraph.FindOrAddNode g l = .ok (g.next_id, g1) ∧
          g1.nodes = g.nodes ++ [(g.next_id, l)] ∧
          (g.next_id, l) ∈ g1.nodes ∧
          nodeCount g1 = nodeCount g + 1) := by
  constructor
  · intro g l i g1 h
    cases hinit : g.initialized with
    | false => simp [LabeledGraph.FindOrAddNode, util.Check, hinit] at h
    | true =>
        cases hchk : labelChecks g.node_types g.default_type l with
        | false =>
            simp [LabeledGraph.FindOrAddNode, util.Check, hinit, hchk] at h
        | true =>
            cases hfind : findLabel g.nodes l with
            | some j =>
                simp [LabeledGraph.FindOrAddNode, util.Check, hinit, hchk,
                  hfind] at h
                obtain ⟨hi, hg⟩ := h
                subst hi
                subst hg
                simp [LabeledGraph.FindOrAddNode, util.Check, hinit, hchk,
                  hfind]
            | none =>
                simp [LabeledGraph.FindOrAddNode, util.Check, hinit, hchk,
                  hfind] at h
                obtain ⟨hi, hg⟩ := h
                subst hi
                subst hg
                have hfind2 :
                    findLabel (g.nodes ++ [(g.next_id, l)]) l =
                      some g.next_id := findLabel_append _ _ _ hfind
                simp [LabeledGraph.FindOrAddNode, util.Check, hinit, hchk,
                  hfind2]
  · intro g l hinit hchk hnol
    have hfind : findLabel g.nodes l = none := (findLabel_eq_none _ _).2 hnol
    refine ⟨{ g with
                nodes := g.nodes ++ [(g.next_id, l)],
                next_id := g.next_id + 1 }, ?_, rfl, ?_, ?_⟩
    · simp [LabeledGraph.FindOrAddNode, util.Check, hinit, hchk, hfind]
    · simp
    · simp [nodeCount]

/-- A concrete initialized graph with one integer-labeled node, used by the
witnesses. -/
def gEx : LabeledGraph :=
  { initialized := true,
    node_types := [("num", AstType.primitive .int)],
    default_type := AstType.primitive .int,
    nodes := [(0, ⟨"num", Value.intV 0⟩)],
    next_id := 1 }

/-- A concrete graph with the same node and edge content as `gEx` but a
different schema, state flag and allocation counter. -/
def gEx2 : LabeledGraph :=
  { initialized := false,
    nodes := [(0, ⟨"num", Value.intV 0⟩)],
    next_id := 5,
    default_type := AstType.primitive .string }

theorem gEx_wf : WellFormed gEx := by
  unfold WellFormed
  refine ⟨?_, ?_, ?_, ?_⟩ <;> decide

/-- C1 witness: a concrete second call returning the first id with the
graph unchanged, and a concrete fresh allocation, obtained from the
theorem. -/
theorem C1_witness :
    LabeledGraph.FindOrAddNode gEx ⟨"num", Value.intV 0⟩ = .ok (0, gEx) ∧
    (LabeledGraph.FindOrAddNode gEx ⟨"num", Value.intV 1⟩).isOk = true := by
  constructor
  · exact C1_find_or_add_node_canonical.1 gEx ⟨"num", Value.intV 0⟩ 0 gEx rfl
  · obtain ⟨g1, h1, h2, h3, h4⟩ :=
      C1_find_or_add_node_canonical.2 gEx ⟨"num", Value.intV 1⟩ rfl rfl
        (by decide)
    rw [h1]
    rfl

/-- C2: `DeleteNodes` keeps exactly the nodes whose ids are not listed and
exactly the edges both of whose endpoints are not listed, both in their
original relative order, and emits no edge that was not in the input (hence
no bridging edge). -/
theorem C2_delete_nodes_exact : ∀ (g : LabeledGraph) (ids : List NodeId),
    (∀ p : NodeId × TaggedValue,
        p ∈ (DeleteNodes g ids).nodes ↔ p ∈ g.nodes ∧ p.1 ∉ ids) ∧
    (∀ e : EdgeEntry,
        e ∈ (DeleteNodes g ids).edges ↔
          e ∈ g.edges ∧ e.source ∉ ids ∧ e.target ∉ ids) ∧
    List.Sublist (DeleteNodes g ids).nodes g.nodes ∧
    List.Sublist (DeleteNodes g ids).edges g.edges := by
  intro g ids
  refine ⟨?_, ?_, ?_, ?_⟩
  · intro p
    simp [DeleteNodes, List.mem_filter]
  · intro e
    simp [DeleteNodes, List.mem_filter, and_assoc]
  · exact List.filter_sublist _
  · exact List.filter_sublist _

/-- C3: a `DeleteNodes` call leaves the input graph — its nodes, edges and
their order — exactly as they were, returning an independent new graph. -/
theorem C3_delete_nodes_input_unmodified :
    ∀ (g : LabeledGraph) (ids : List NodeId),
      (DeleteNodesCall g ids).1 = g ∧
      (DeleteNodesCall g ids).1.nodes = g.nodes ∧
      (DeleteNodesCall g ids).1.edges = g.edges ∧
      (DeleteNodesCall g ids).2 = DeleteNodes g ids := by
  intro g ids
  exact ⟨rfl, rfl, rfl, rfl⟩

/-- C4: `DeleteNodes` never fails: on any well-formed graph and any id list,
including ids naming no node, the result is well-formed; when no listed id
names a node of the graph the result equals the input graph. -/
theorem C4_delete_nodes_total : ∀ (g : LabeledGraph) (ids : List NodeId),
    (WellFormed g → WellFormed (DeleteNodes g ids)) ∧
    ((∀ i ∈ ids, hasNode g i = false) → WellFormed g →
      DeleteNodes g ids = g) := by
  intro g ids
  constructor
  · rintro ⟨hn, he, hid, hnd⟩
    refine ⟨?_, ?_, ?_, ?_⟩
    · intro p hp
      exact hn p (List.mem_filter.1 hp).1
    · intro e hef
      obtain ⟨hmem, hcond⟩ := List.mem_filter.1 hef
      obtain ⟨hchk, hsrc, htgt⟩ := he e hmem
      have hnotin : e.source ∉ ids ∧ e.target ∉ ids := by
        simpa [Bool.and_eq_true, decide_eq_true_eq] using hcond
      refine ⟨hchk, ?_, ?_⟩
      · obtain ⟨p, hp, hpi⟩ := (hasNode_iff g e.source).1 hsrc
        refine (hasNode_iff _ e.source).2 ⟨p, ?_, hpi⟩
        simp only [DeleteNodes, List.mem_filter]
        exact ⟨hp, by simp [hpi, hnotin.1]⟩
      · obtain ⟨p, hp, hpi⟩ := (hasNode_iff g e.target).1 htgt
        refine (hasNode_iff _ e.target).2 ⟨p, ?_, hpi⟩
        simp only [DeleteNodes, List.mem_filter]
        exact ⟨hp, by simp [hpi, hnotin.2]⟩
    · intro p hp
      exact hid p (List.mem_filter.1 hp).1
    · exact List.Nodup.sublist
        (List.Sublist.map _ (List.filter_sublist _)) hnd
  · rintro hids ⟨hn, he, hid, hnd⟩
    have h1 : g.nodes.filter (fun p => decide (p.1 ∉ ids)) = g.nodes := by
      rw [List.filter_eq_self]
      intro p hp
      rw [decide_eq_true_eq]
      intro hmem
      have hfalse := hids p.1 hmem
      have htrue := (hasNode_iff g p.1).2 ⟨p, hp, rfl⟩
      rw [hfalse] at htrue
      exact Bool.noConfusion htrue
    have h2 : g.edges.filter
        (fun e => decide (e.source ∉ ids) && decide (e.target ∉ ids)) =
        g.edges := by
      rw [List.filter_eq_self]
      intro e hee
      obtain ⟨hchk, hsrc, htgt⟩ := he e hee
      have hs : e.source ∉ ids := by
        intro hmem
        have hfalse := hids e.source hmem
        rw [hfalse] at hsrc
        exact Bool.noConfusion hsrc
      have ht : e.target ∉ ids := by
        intro hmem
        have hfalse := hids e.target hmem
        rw [hfalse] at htgt
        exact Bool.noConfusion htgt
      simp [hs, ht]
    simp only [DeleteNodes, h1, h2]

/-- C4 witness: deleting an id that names no node of a concrete well-formed
graph returns the graph unchanged, and the result of any deletion on it is
well-formed. -/
theorem C4_witness :
    DeleteNodes gEx [7] = gEx ∧ WellFormed (DeleteNodes gEx [0]) :=
  ⟨(C4_delete_nodes_total gEx [7]).2 (by decide) gEx_wf,
   (C4_delete_nodes_total gEx [0]).1 gEx_wf⟩

/-- C5: `DotGraph` is a pure function of the graph's node and edge content —
equal content yields byte-identical text — and its output is the
concatenation of one declaration per node then one per edge in the graph's
own iteration order, with no other content. -/
theorem C5_dot_graph_deterministic : ∀ (g g2 : LabeledGraph),
    g.nodes = g2.nodes → g.edges = g2.edges →
    DotGraph g = DotGraph g2 ∧
    DotGraph g = "digraph logle_graph \x7b\n"
      ++ joinAll (g.nodes.map nodeDecl) ++ joinAll (g.edges.map edgeDecl)
      ++ "\x7d\n" := by
  intro g g2 hn he
  constructor
  · simp [DotGraph, hn, he]
  · rfl

/-- C5 witness: byte-identical export of two concrete graphs with equal
node and edge content but different schemas and allocation counters. -/
theorem C5_witness : DotGraph gEx = DotGraph gEx2 :=
  (C5_dot_graph_deterministic gEx gEx2 rfl rfl).1

theorem shapeTagged_none : ∀ (fields : TypeFields) (tag : String) (r : Raw),
    lookupType fields tag = none → shapeTagged fields tag r = false
  | .nil, _, _, _ => rfl
  | .cons k t rest, tag, r, h => by
      by_cases hk : k = tag
      · simp [lookupType, hk] at h
      · simp only [lookupType, if_neg hk] at h
        simp only [shapeTagged, if_neg hk]
        exact shapeTagged_none rest tag r h

theorem shapeComposite_missing : ∀ (fields : TypeFields)
    (rfields : RawFields) (f : String) (t : AstType),
    lookupType fields f = some t → lookupRaw rfields f = none →
    shapeComposite fields rfields = false
  | .nil, rfields, f, t, hdecl, _ => by simp [lookupType] at hdecl
  | .cons k t2 rest, rfields, f, t, hdecl, hmiss => by
      by_cases hk : k = f
      · subst hk
        simp [shapeComposite, hmiss]
      · simp only [lookupType, if_neg hk] at hdecl
        simp only [shapeComposite]
        cases hr : lookupRaw rfields k with
        | none => rfl
        | some r => simp [shapeComposite_missing rest rfields f t hdecl hmiss]

/-- C6: `MakeValue(type, raw)` either returns a Value conforming to the type
or fails, and it fails exactly when the raw datum cannot be represented
under the type — in particular for null under a non-nullable primitive, an
unregistered tag under a tagged type, and a missing declared field under a
composite type; no partially-typed value is produced, and tagged values are
equal through structural equality exactly when their tags and inner values
are. -/
theorem C6_make_value_total :
    (∀ (t : AstType) (r : Raw) (v : Value),
        MakeValue t r = .ok v → conforms v t = true) ∧
    (∀ (t : AstType) (r : Raw), exceptOk (MakeValue t r) = wellShaped t r) ∧
    (∀ (p : PrimitiveType),
        exceptOk (MakeValue (.primitive p) .null) = false) ∧
    (∀ (fields : TypeFields) (tag : String) (r : Raw),
        lookupType fields tag = none →
        exceptOk (MakeValue (.tagged fields) (.tagged tag r)) = false) ∧
    (∀ (fields : TypeFields) (rfields : RawFields) (f : String)
        (t : AstType),
        lookupType fields f = some t → lookupRaw rfields f = none →
        exceptOk (MakeValue (.composite fields) (.composite rfields)) =
          false) ∧
    (∀ (tag1 tag2 : String) (v1 v2 : Value),
        Value.taggedV tag1 v1 = Value.taggedV tag2 v2 ↔
          tag1 = tag2 ∧ v1 = v2) := by
  refine ⟨makeValue_conforms, makeValue_isOk, ?_, ?_, ?_, ?_⟩
  · intro p
    cases p <;> rfl
  · intro fields tag r h
    rw [makeValue_isOk]
    simp only [wellShaped]
    exact shapeTagged_none fields tag r h
  · intro fields rfields f t hdecl hmiss
    rw [makeValue_isOk]
    simp only [wellShaped]
    exact shapeComposite_missing fields rfields f t hdecl hmiss
  · intro tag1 tag2 v1 v2
    simp

/-- C6 witness: a concrete unregistered-tag failure, a concrete
missing-field failure, a concrete null-for-primitive failure, and the
conformance of a concrete successful construction, obtained from the
theorem. -/
theorem C6_witness :
    exceptOk (MakeValue (.tagged .nil) (.tagged "z" (.int 0))) = false ∧
    exceptOk (MakeValue (.composite (.cons "a" (.primitive .int) .nil))
      (.composite .nil)) = false ∧
    exceptOk (MakeValue (.primitive .int) .null) = false ∧
    conforms (.taggedV "n" (.intV 3))
      (.tagged (.cons "n" (.primitive .int) .nil)) = true := by
  refine ⟨?_, ?_, ?_, ?_⟩
  · exact C6_make_value_total.2.2.2.1 .nil "z" (.int 0) rfl
  · exact C6_make_value_total.2.2.2.2.1 (.cons "a" (.primitive .int) .nil)
      .nil "a" (.primitive .int) rfl rfl
  · exact C6_make_value_total.2.2.1 .int
  · exact C6_make_value_total.1 (.tagged (.cons "n" (.primitive .int) .nil))
      (.tagged "n" (.int 3)) (.taggedV "n" (.intV 3)) rfl

theorem addEdge_ok (g : LabeledGraph) (s t : NodeId) (l : TaggedValue)
    (hinit : g.initialized = true)
    (hchk : labelChecks g.edge_types g.default_type l = true)
    (hs : hasNode g s = true) (ht : hasNode g t = true) :
    LabeledGraph.AddEdge g s t l =
      .ok (g.edges.length, { g with edges := g.edges ++ [⟨t, s, l⟩] }) := by
  simp [LabeledGraph.AddEdge, util.Check, hinit, hchk, hs, ht]

/-- C7: on an initialized graph, `AddEdge` fails when an endpoint does not
exist; when both endpoints exist and the label type-checks against the edge
schema it always appends a new edge entry owned by the target and recording
the source, and repeating the identical call appends again, increasing the
edge count each time — edges are never deduplicated. -/
theorem C7_add_edge_no_dedup :
    (∀ (g : LabeledGraph) (s t : NodeId) (l : TaggedValue),
        g.initialized = true →
        hasNode g s = false ∨ hasNode g t = false →
        (LabeledGraph.AddEdge g s t l).isOk = false) ∧
    (∀ (g : LabeledGraph) (s t : NodeId) (l : TaggedValue),
        g.initialized = true →
        labelChecks g.edge_types g.default_type l = true →
        hasNode g s = true → hasNode g t = true →
        ∃ g1 g2,
          LabeledGraph.AddEdge g s t l = .ok (edgeCount g, g1) ∧
          g1.edges = g.edges ++ [⟨t, s, l⟩] ∧
          edgeCount g1 = edgeCount g + 1 ∧
          LabeledGraph.AddEdge g1 s t l = .ok (edgeCount g1, g2) ∧
          g2.edges = g1.edges ++ [⟨t, s, l⟩] ∧
          edgeCount g2 = edgeCount g + 2) := by
  constructor
  · intro g s t l hinit hmiss
    have hand : (hasNode g s && hasNode g t) = false := by
      rcases hmiss with h | h <;> simp [h]
    cases hchk : labelChecks g.edge_types g.default_type l with
    | false =>
        simp [LabeledGraph.AddEdge, util.Check, hinit, hchk, OpResult.isOk]
    | true =>
        simp [LabeledGraph.AddEdge, util.Check, hinit, hchk, hand,
          OpResult.isOk]
  · intro g s t l hinit hchk hs ht
    refine ⟨{ g with edges := g.edges ++ [⟨t, s, l⟩] },
            { g with edges := (g.edges ++ [⟨t, s, l⟩]) ++ [⟨t, s, l⟩] },
            ?_, rfl, ?_, ?_, rfl, ?_⟩
    · exact addEdge_ok g s t l hinit hchk hs ht
    · simp [edgeCount]
    · exact addEdge_ok { g with edges := g.edges ++ [⟨t, s, l⟩] } s t l
        hinit hchk hs ht
    · simp [edgeCount]

/-- A concrete initialized graph with two integer-labeled nodes and an edge
schema, used by the witnesses. -/
def gEx3 : LabeledGraph :=
  { initialized := true,
    node_types := [("num", AstType.primitive .int)],
    edge_types := [("e", AstType.primitive .string)],
    default_type := AstType.primitive .int,
    nodes := [(0, ⟨"num", Value.intV 0⟩), (1, ⟨"num", Value.intV 1⟩)],
    next_id := 2 }

/-- C7 witness: a concrete missing-endpoint failure and a concrete
successful edge insertion, obtained from the theorem. -/
theorem C7_witness :
    (LabeledGraph.AddEdge gEx3 5 0 ⟨"e", Value.stringV "x"⟩).isOk = false ∧
    (LabeledGraph.AddEdge gEx3 0 1 ⟨"e", Value.stringV "x"⟩).isOk = true := by
  constructor
  · exact C7_add_edge_no_dedup.1 gEx3 5 0 ⟨"e", Value.stringV "x"⟩ rfl
      (Or.inl rfl)
  · obtain ⟨g1, g2, h1, _⟩ :=
      C7_add_edge_no_dedup.2 gEx3 0 1 ⟨"e", Value.stringV "x"⟩ rfl rfl rfl rfl
    rw [h1]
    rfl

/-- C8: the store starts Uninitialized; only `Initialize` moves it to
Initialized; node and edge operations invoked while Uninitialized fail
fatally through the checking utility, which aborts the process on a false
condition; initializing an already initialized store is an error (fatal);
no node or edge operation completes on an uninitialized store; and the
other operations never change the state. -/
theorem C8_two_state_machine :
    ({} : LabeledGraph).initialized = false ∧
    (∀ (c : Bool) (loc e : String), util.Check c loc e = none ↔ c = false) ∧
    (∀ (g : LabeledGraph) nt na et ea d, g.initialized = false →
        ∃ g1, LabeledGraph.Initialize g nt na et ea d = .ok g1 ∧
          g1.initialized = true) ∧
    (∀ (g : LabeledGraph) nt na et ea d, g.initialized = true →
        LabeledGraph.Initialize g nt na et ea d = .fatal) ∧
    (∀ (g : LabeledGraph) (l : TaggedValue), g.initialized = false →
        LabeledGraph.FindOrAddNode g l = .fatal) ∧
    (∀ (g : LabeledGraph) (s t : NodeId) (l : TaggedValue),
        g.initialized = false → LabeledGraph.AddEdge g s t l = .fatal) ∧
    (∀ (g : LabeledGraph) (l : TaggedValue) (i : NodeId) (g1 : LabeledGraph),
        LabeledGraph.FindOrAddNode g l = .ok (i, g1) →
        g.initialized = true ∧ g1.initialized = true) ∧
    (∀ (g : LabeledGraph) (s t : NodeId) (l : TaggedValue) (i : EdgeId)
        (g1 : LabeledGraph),
        LabeledGraph.AddEdge g s t l = .ok (i, g1) →
        g.initialized = true ∧ g1.initialized = true) ∧
    (∀ (g : LabeledGraph) (ids : List NodeId),
        (DeleteNodes g ids).initialized = g.initialized) := by
  refine ⟨rfl, ?_, ?_, ?_, ?_, ?_, ?_, ?_, ?_⟩
  · intro c loc e
    cases c <;> simp [util.Check]
  · intro g nt na et ea d hinit
    refine ⟨{ g with
                initialized := true,
                node_types := nt,
                node_attr_types := na,
                edge_types := et,
                edge_attr_types := ea,
                default_type := d }, ?_, rfl⟩
    simp [LabeledGraph.Initialize, util.Check, hinit]
  · intro g nt na et ea d hinit
    simp [LabeledGraph.Initialize, util.Check, hinit]
  · intro g l hinit
    simp [LabeledGraph.FindOrAddNode, util.Check, hinit]
  · intro g s t l hinit
    simp [LabeledGraph.AddEdge, util.Check, hinit]
  · intro g l i g1 h
    cases hinit : g.initialized with
    | false => simp [LabeledGraph.FindOrAddNode, util.Check, hinit] at h
    | true =>
        refine ⟨rfl, ?_⟩
        cases hchk : labelChecks g.node_types g.default_type l with
        | false =>
            simp [LabeledGraph.FindOrAddNode, util.Check, hinit, hchk] at h
        | true =>
            cases hfind : findLabel g.nodes l with
            | some j =>
                simp [LabeledGraph.FindOrAddNode, util.Check, hinit, hchk,
                  hfind] at h
                rw [← h.2]
                exact hinit
            | none =>
                simp [LabeledGraph.FindOrAddNode, util.Check, hinit, hchk,
                  hfind] at h
                rw [← h.2]
  · intro g s t l i g1 h
    cases hinit : g.initialized with
    | false => simp [LabeledGraph.AddEdge, util.Check, hinit] at h
    | true =>
        refine ⟨rfl, ?_⟩
        cases hchk : labelChecks g.edge_types g.default_type l with
        | false =>
            simp [LabeledGraph.AddEdge, util.Check, hinit, hchk] at h
        | true =>
            cases hnodes : hasNode g s && hasNode g t with
            | false =>
                simp [LabeledGraph.AddEdge, util.Check, hinit, hchk,
                  hnodes] at h
            | true =>
                simp [LabeledGraph.AddEdge, util.Check, hinit, hchk,
                  hnodes] at h
                rw [← h.2]
  · intro g ids
    rfl

/-- C8 witness: a concrete fatal check, concrete fatal operations on an
uninitialized store, a concrete fatal re-initialization, and a concrete
successful initialization, obtained from the theorem. -/
theorem C8_witness :
    util.Check false "L" "E" = none ∧
    LabeledGraph.FindOrAddNode ({} : LabeledGraph) ⟨"num", Value.intV 0⟩ =
      .fatal ∧
    LabeledGraph.AddEdge ({} : LabeledGraph) 0 1 ⟨"e", Value.intV 0⟩ =
      .fatal ∧
    LabeledGraph.Initialize gEx [] [] [] [] (.primitive .int) = .fatal ∧
    (LabeledGraph.Initialize ({} : LabeledGraph)
      [("num", AstType.primitive .int)] [] [] []
      (.primitive .int)).isOk = true := by
  refine ⟨?_, ?_, ?_, ?_, ?_⟩
  · exact (C8_two_state_machine.2.1 false "L" "E").2 rfl
  · exact C8_two_state_machine.2.2.2.2.1 ({} : LabeledGraph)
      ⟨"num", Value.intV 0⟩ rfl
  · exact C8_two_state_machine.2.2.2.2.2.1 ({} : LabeledGraph) 0 1
      ⟨"e", Value.intV 0⟩ rfl
  · exact C8_two_state_machine.2.2.2.1 gEx [] [] [] [] (.primitive .int) rfl
  · obtain ⟨g1, h1, _⟩ := C8_two_state_machine.2.2.1 ({} : LabeledGraph)
      [("num", AstType.primitive .int)] [] [] [] (.primitive .int) rfl
    rw [h1]
    rfl

/-- A concrete Plaso analyzer whose build step reports failure. -/
def plasoEx : PlasoAnalyzer :=
  { fileOpens := true,
    initStatus := Status.OK,
    buildStatus := ⟨Code.INTERNAL, "build failed"⟩,
    dotText := "dot" }

/-- A concrete Plaso analyzer whose initialization fails. -/
def plasoInitFailEx : PlasoAnalyzer :=
  { fileOpens := true,
    initStatus := ⟨Code.EXTERNAL, "bad stream"⟩,
    buildStatus := Status.OK,
    dotText := "dot" }

/-- Concrete options selecting the Plaso analyzer on a JSON input. -/
def optsPlasoEx : AnalysisOptions :=
  { analyzer := some "plaso",
    input_file := .json_file "events.json",
    output_file := .unset }

/-- A concrete Curio analyzer whose initialization fails. -/
def curioInitFailEx : CurioAnalyzer :=
  { initStatus := ⟨Code.EXTERNAL, "bad json"⟩,
    buildStatus := Status.OK,
    dotText := "d" }

/-- A concrete Curio analyzer whose build fails. -/
def curioBuildFailEx : CurioAnalyzer :=
  { initStatus := Status.OK,
    buildStatus := ⟨Code.INTERNAL, "bad graph"⟩,
    dotText := "d" }

/-- Concrete options selecting the Curio analyzer on a JSON input. -/
def optsCurioEx : AnalysisOptions :=
  { analyzer := some "curio",
    input_file := .json_file "streams.json",
    output_file := .unset }

/-- A concrete mail access analyzer whose initialization fails. -/
def mailInitFailEx : AccessAnalyzer :=
  { csvParserStatus := Status.OK,
    initStatus := ⟨Code.EXTERNAL, "bad csv"⟩,
    buildStatus := Status.OK,
    dotText := "d" }

/-- A concrete mail access analyzer whose build fails. -/
def mailBuildFailEx : AccessAnalyzer :=
  { csvParserStatus := Status.OK,
    initStatus := Status.OK,
    buildStatus := ⟨Code.INTERNAL, "bad graph"⟩,
    dotText := "d" }

/-- Concrete options selecting the mail access analyzer on a CSV input. -/
def optsMailEx : AnalysisOptions :=
  { analyzer := some "mail",
    input_file := .csv_file "access.csv",
    output_file := .unset }

/-- C9 counterexample: in the Plaso driver a non-OK status of the build
step does not cause the driver to return it — at this concrete input the
driver returns OK and invokes the export step PlasoGraphDot anyway. -/
theorem C9_counterexample :
    plasoEx.buildStatus.ok = false ∧
    frontend.RunPlasoAnalyzer optsPlasoEx plasoEx "" =
      some ⟨Status.OK, "dot", true⟩ :=
  ⟨rfl, rfl⟩

/-- C9 amended: in the Curio and mail-access drivers a non-OK status from
the Initialize or the Build step causes the driver to return that status
without invoking the export step; in the Plaso driver this holds for
Initialize only — no build status is consulted, and after a successful
initialization the driver always invokes PlasoGraphDot and returns OK. -/
theorem C9_short_circuit_amended :
    (∀ (o : AnalysisOptions) (a : CurioAnalyzer) (d : String),
        o.has_json_file = true → a.initStatus.ok = false →
        frontend.RunCurioAnalyzer o a d = ⟨a.initStatus, d, false⟩) ∧
    (∀ (o : AnalysisOptions) (a : CurioAnalyzer) (d : String),
        o.has_json_file = true → a.initStatus.ok = true →
        a.buildStatus.ok = false →
        frontend.RunCurioAnalyzer o a d = ⟨a.buildStatus, d, false⟩) ∧
    (∀ (o : AnalysisOptions) (a : AccessAnalyzer) (d : String),
        o.has_csv_file = true → a.csvParserStatus.ok = true →
        a.initStatus.ok = false →
        frontend.RunMailAccessAnalyzer o a d = ⟨a.initStatus, d, false⟩) ∧
    (∀ (o : AnalysisOptions) (a : AccessAnalyzer) (d : String),
        o.has_csv_file = true → a.csvParserStatus.ok = true →
        a.initStatus.ok = true → a.buildStatus.ok = false →
        frontend.RunMailAccessAnalyzer o a d = ⟨a.buildStatus, d, false⟩) ∧
    (∀ (o : AnalysisOptions) (a : PlasoAnalyzer) (d f : String),
        o.input_file = .json_file f → a.fileOpens = true →
        a.initStatus.ok = false →
        frontend.RunPlasoAnalyzer o a d = some ⟨a.initStatus, d, false⟩) ∧
    (∀ (o : AnalysisOptions) (a : PlasoAnalyzer) (d f : String),
        o.input_file = .json_file f → a.fileOpens = true →
        a.initStatus.ok = true →
        frontend.RunPlasoAnalyzer o a d =
          some ⟨Status.OK, a.dotText, true⟩) := by
  refine ⟨?_, ?_, ?_, ?_, ?_, ?_⟩
  · intro o a d hj hi
    simp [frontend.RunCurioAnalyzer, hj, hi]
  · intro o a d hj hi hb
    simp [frontend.RunCurioAnalyzer, hj, hi, hb]
  · intro o a d hc hp hi
    simp [frontend.RunMailAccessAnalyzer, hc, hp, hi]
  · intro o a d hc hp hi hb
    simp [frontend.RunMailAccessAnalyzer, hc, hp, hi, hb]
  · intro o a d f hf ho hi
    simp [frontend.RunPlasoAnalyzer, hf, ho, hi]
  · intro o a d f hf ho hi
    simp [frontend.RunPlasoAnalyzer, hf, ho, hi]

/-- C9 witness: the six short-circuit shapes of the amended claim at
concrete inputs, obtained from the theorem. -/
theorem C9_witness :
    frontend.RunCurioAnalyzer optsCurioEx curioInitFailEx "" =
      ⟨⟨Code.EXTERNAL, "bad json"⟩, "", false⟩ ∧
    frontend.RunCurioAnalyzer optsCurioEx curioBuildFailEx "" =
      ⟨⟨Code.INTERNAL, "bad graph"⟩, "", false⟩ ∧
    frontend.RunMailAccessAnalyzer optsMailEx mailInitFailEx "" =
      ⟨⟨Code.EXTERNAL, "bad csv"⟩, "", false⟩ ∧
    frontend.RunMailAccessAnalyzer optsMailEx mailBuildFailEx "" =
      ⟨⟨Code.INTERNAL, "bad graph"⟩, "", false⟩ ∧
    frontend.RunPlasoAnalyzer optsPlasoEx plasoInitFailEx "" =
      some ⟨⟨Code.EXTERNAL, "bad stream"⟩, "", false⟩ ∧
    frontend.RunPlasoAnalyzer optsPlasoEx plasoEx "" =
      some ⟨Status.OK, "dot", true⟩ := by
  refine ⟨?_, ?_, ?_, ?_, ?_, ?_⟩
  · exact C9_short_circuit_amended.1 optsCurioEx curioInitFailEx "" rfl rfl
  · exact C9_short_circuit_amended.2.1 optsCurioEx curioBuildFailEx ""
      rfl rfl rfl
  · exact C9_short_circuit_amended.2.2.1 optsMailEx mailInitFailEx ""
      rfl rfl rfl
  · exact C9_short_circuit_amended.2.2.2.1 optsMailEx mailBuildFailEx ""
      rfl rfl rfl rfl
  · exact C9_short_circuit_amended.2.2.2.2.1 optsPlasoEx plasoInitFailEx ""
      "events.json" rfl rfl rfl
  · exact C9_short_circuit_amended.2.2.2.2.2 optsPlasoEx plasoEx ""
      "events.json" rfl rfl rfl

namespace frontend

/-- The driver result Run acts on for a recognized analyzer name: `none`
when the name is missing or unrecognized or when the Plaso driver
aborts. -/
def theDriver (options : AnalysisOptions) (a : Analyzers) :
    Option DriverResult :=
  match options.analyzer with
  | none => none
  | some nm =>
      if nm = "curio" then some (RunCurioAnalyzer options a.curio "")
      else if nm = "mail" then some (RunMailAccessAnalyzer options a.mail "")
      else if nm = "plaso" then RunPlasoAnalyzer options a.plaso ""
      else none

theorem run_eq_finish (options : AnalysisOptions) (a : Analyzers)
    (w : Status) (dr : DriverResult) (h : theDriver options a = some dr) :
    Run options a w = some (finishRun options w dr) := by
  cases ho : options.analyzer with
  | none => simp [theDriver, ho] at h
  | some nm =>
      by_cases h1 : nm = "curio"
      · simp [theDriver, ho, h1] at h
        subst h
        simp [Run, ho, h1]
      · by_cases h2 : nm = "mail"
        · simp [theDriver, ho, h1, h2] at h
          subst h
          simp [Run, ho, h1, h2]
        · by_cases h3 : nm = "plaso"
          · simp [theDriver, ho, h1, h2, h3] at h
            simp [Run, ho, h1, h2, h3, h]
          · simp [theDriver, ho, h1, h2, h3] at h

theorem finishRun_eq_noWrite (options : AnalysisOptions) (w : Status)
    (dr : DriverResult)
    (h : dr.status.ok = false ∨ dr.dot_graph = "") :
    finishRun options w dr = ⟨dr.status, false, ""⟩ := by
  rcases h with h | h
  · simp [finishRun, h]
  · simp [finishRun, h]

theorem finishRun_eq_write (options : AnalysisOptions) (w : Status)
    (dr : DriverResult) (hok : dr.status.ok = true)
    (hd : dr.dot_graph ≠ "") (hof : options.output_dot_file ≠ "") :
    finishRun options w dr = ⟨w, true, dr.dot_graph⟩ := by
  have hd2 : (dr.dot_graph == "") = false := beq_eq_false_iff_ne.2 hd
  have hof2 : (options.output_dot_file == "") = false :=
    beq_eq_false_iff_ne.2 hof
  simp [finishRun, hok, hd2, hof2]

theorem finishRun_eq_noFile (options : AnalysisOptions) (w : Status)
    (dr : DriverResult) (hok : dr.status.ok = true)
    (hd : dr.dot_graph ≠ "") (hof : options.output_dot_file = "") :
    finishRun options w dr = ⟨dr.status, false, ""⟩ := by
  have hd2 : (dr.dot_graph == "") = false := beq_eq_false_iff_ne.2 hd
  simp [finishRun, hok, hd2, hof]

end frontend

/-- C10: `frontend.Run` invokes WriteToFile only when the selected driver
returned an OK status with nonempty DOT text and an output DOT file is
named; a missing or unrecognized analyzer name yields INVALID_ARGUMENT
with no write; a driver failure or empty output returns the driver's
status with no write; and when writing is skipped only because no output
file is named the driver's status is returned. -/
theorem C10_run_write_guard :
    (∀ (o : AnalysisOptions) (a : frontend.Analyzers) (w : Status)
        (r : frontend.RunResult),
        frontend.Run o a w = some r → r.wroteFile = true →
        ∃ dr : DriverResult, frontend.theDriver o a = some dr ∧
          dr.status.ok = true ∧ dr.dot_graph ≠ "" ∧
          o.output_dot_file ≠ "" ∧ r.written = dr.dot_graph) ∧
    (∀ (o : AnalysisOptions) (a : frontend.Analyzers) (w : Status)
        (dr : DriverResult),
        frontend.theDriver o a = some dr →
        dr.status.ok = false ∨ dr.dot_graph = "" →
        frontend.Run o a w = some ⟨dr.status, false, ""⟩) ∧
    (∀ (o : AnalysisOptions) (a : frontend.Analyzers) (w : Status)
        (dr : DriverResult),
        frontend.theDriver o a = some dr → dr.status.ok = true →
        dr.dot_graph ≠ "" → o.output_dot_file ≠ "" →
        frontend.Run o a w = some ⟨w, true, dr.dot_graph⟩) ∧
    (∀ (o : AnalysisOptions) (a : frontend.Analyzers) (w : Status),
        o.analyzer = none →
        frontend.Run o a w =
          some ⟨⟨Code.INVALID_ARGUMENT, frontend.kInvalidAnalyzerErr⟩,
            false, ""⟩) ∧
    (∀ (o : AnalysisOptions) (a : frontend.Analyzers) (w : Status)
        (nm : String),
        o.analyzer = some nm → nm ≠ "curio" → nm ≠ "mail" → nm ≠ "plaso" →
        frontend.Run o a w =
          some ⟨⟨Code.INVALID_ARGUMENT, frontend.kInvalidAnalyzerErr⟩,
            false, ""⟩) := by
  refine ⟨?_, ?_, ?_, ?_, ?_⟩
  · intro o a w r hrun hw
    cases hdrv : frontend.theDriver o a with
    | some dr =>
        rw [frontend.run_eq_finish o a w dr hdrv] at hrun
        simp only [Option.some.injEq] at hrun
        subst hrun
        cases hok : dr.status.ok with
        | false =>
            rw [frontend.finishRun_eq_noWrite o w dr (Or.inl hok)] at hw
            exact absurd hw (by simp)
        | true =>
            by_cases hd : dr.dot_graph = ""
            · rw [frontend.finishRun_eq_noWrite o w dr (Or.inr hd)] at hw
              exact absurd hw (by simp)
            · by_cases hof : o.output_dot_file = ""
              · rw [frontend.finishRun_eq_noFile o w dr hok hd hof] at hw
                exact absurd hw (by simp)
              · refine ⟨dr, rfl, hok, hd, hof, ?_⟩
                rw [frontend.finishRun_eq_write o w dr hok hd hof]
    | none =>
        cases ho : o.analyzer with
        | none =>
            simp [frontend.Run, ho] at hrun
            rw [← hrun] at hw
            exact absurd hw (by simp)
        | some nm =>
            by_cases h1 : nm = "curio"
            · simp [frontend.theDriver, ho, h1] at hdrv
            · by_cases h2 : nm = "mail"
              · simp [frontend.theDriver, ho, h1, h2] at hdrv
              · by_cases h3 : nm = "plaso"
                · simp [frontend.theDriver, ho, h1, h2, h3] at hdrv
                  simp [frontend.Run, ho, h1, h2, h3, hdrv] at hrun
                · simp [frontend.Run, ho, h1, h2, h3] at hrun
                  rw [← hrun] at hw
                  exact absurd hw (by simp)
  · intro o a w dr hdrv hfail
    rw [frontend.run_eq_finish o a w dr hdrv,
      frontend.finishRun_eq_noWrite o w dr hfail]
  · intro o a w dr hdrv hok hd hof
    rw [frontend.run_eq_finish o a w dr hdrv,
      frontend.finishRun_eq_write o w dr hok hd hof]
  · intro o a w ho
    simp [frontend.Run, ho]
  · intro o a w nm ho h1 h2 h3
    simp [frontend.Run, ho, h1, h2, h3]

/-- A concrete Curio analyzer that succeeds with nonempty DOT output. -/
def curioOkEx : CurioAnalyzer :=
  { initStatus := Status.OK,
    buildStatus := Status.OK,
    dotText := "digraph" }

/-- A concrete bundle of analyzer outcomes for one frontend run. -/
def analyzersEx : frontend.Analyzers :=
  ⟨curioOkEx, mailBuildFailEx, plasoEx⟩

/-- Concrete options selecting the Curio analyzer with an output DOT
file. -/
def optsWriteEx : AnalysisOptions :=
  { analyzer := some "curio",
    input_file := .json_file "a.json",
    output_file := .output_dot_file "out.dot" }

/-- Concrete options with no analyzer name. -/
def optsNoneEx : AnalysisOptions :=
  { analyzer := none, input_file := .unset, output_file := .unset }

/-- Concrete options naming an unrecognized analyzer. -/
def optsBogusEx : AnalysisOptions :=
  { analyzer := some "bogus", input_file := .unset, output_file := .unset }

/-- C10 witness: a concrete successful run that writes, a concrete driver
failure that returns without writing, a concrete missing name and a
concrete unrecognized name both yielding INVALID_ARGUMENT without writing,
obtained from the theorem. -/
theorem C10_witness :
    frontend.Run optsWriteEx analyzersEx Status.OK =
      some ⟨Status.OK, true, "digraph"⟩ ∧
    frontend.Run optsMailEx analyzersEx Status.OK =
      some ⟨⟨Code.INTERNAL, "bad graph"⟩, false, ""⟩ ∧
    frontend.Run optsNoneEx analyzersEx Status.OK =
      some ⟨⟨Code.INVALID_ARGUMENT, frontend.kInvalidAnalyzerErr⟩,
        false, ""⟩ ∧
    frontend.Run optsBogusEx analyzersEx Status.OK =
      some ⟨⟨Code.INVALID_ARGUMENT, frontend.kInvalidAnalyzerErr⟩,
        false, ""⟩ ∧
    optsWriteEx.output_dot_file ≠ "" := by
  refine ⟨?_, ?_, ?_, ?_, ?_⟩
  · exact C10_run_write_guard.2.2.1 optsWriteEx analyzersEx Status.OK
      (frontend.RunCurioAnalyzer optsWriteEx curioOkEx "") rfl rfl
      (by decide) (by decide)
  · exact C10_run_write_guard.2.1 optsMailEx analyzersEx Status.OK
      (frontend.RunMailAccessAnalyzer optsMailEx mailBuildFailEx "") rfl
      (Or.inl rfl)
  · exact C10_run_write_guard.2.2.2.1 optsNoneEx analyzersEx Status.OK rfl
  · exact C10_run_write_guard.2.2.2.2 optsBogusEx analyzersEx Status.OK
      "bogus" rfl (by decide) (by decide) (by decide)
  · obtain ⟨dr, _, _, _, hof, _⟩ := C10_run_write_guard.1 optsWriteEx
      analyzersEx Status.OK ⟨Status.OK, true, "digraph"⟩
      (C10_run_write_guard.2.2.1 optsWriteEx analyzersEx Status.OK
        (frontend.RunCurioAnalyzer optsWriteEx curioOkEx "") rfl rfl
        (by decide) (by decide)) rfl
    exact hof

end Morphie
